import Mathlib

set_option maxHeartbeats 1000000

/-!
Verification of the account-pool request pipeline of twscrape
(`twscrape/queue_client.py` and the pagination driver in `twscrape/api.py`).

The embedding is a direct translation of the Python source:

* `check_rep` models `QueueClient._check_rep` (the response classifier),
  together with its helpers `_handle_ban_strike`, `_handle_soft_error`,
  `_reset_soft_errors` and `_close_ctx`.
* The per-account reputation dictionaries `_soft_error_counts` and
  `_ban_strikes` are modelled as association lists with Python `dict`
  get/set/del semantics (`dget`/`dset`/`ddel`).
* `qc_go` models the retry loop of `QueueClient.req`, driven by a script of
  transport outcomes; `qc_session` wraps it in the `__aenter__`/`__aexit__`
  discipline.  Pool mutations (`lock_until`, `unlock`, `mark_inactive`) and
  account borrows are recorded as a trace of events.
* `ctxReqGo`/`ctx_req` model `Ctx.req` (the 404 / token-regeneration loop).
* `gql_items` models `API._gql_items` together with `API._is_end`.

Exceptions in the source (`HandledError`, `AbortReqError`, `exit(1)`) become
the `Verdict` values `handled`, `aborted` and `procExit`; a `None` return of
`_check_rep` (response passed to the caller) becomes `passed`.
-/

/-- Python `str.startswith`, on character lists. -/
def lpre : List Char → List Char → Bool
  | [], _ => true
  | _ :: _, [] => false
  | a :: ps, b :: ss => a == b && lpre ps ss

/-- Python `p.startswith(q)` on strings: `sPre q p` is true when `p` begins with `q`. -/
def sPre (q p : String) : Bool := lpre q.toList p.toList

/-- Python substring containment, on character lists. -/
def lInfix : List Char → List Char → Bool
  | p, [] => lpre p []
  | p, c :: t => lpre p (c :: t) || lInfix p t

/-- Python `q in s` (substring test). -/
def strContains (s q : String) : Bool := lInfix q.toList s.toList

/-- `conflict p q` holds when the two lists differ at some position where both
are defined; then no string can begin with both `p` and `q`. -/
def lconf : List Char → List Char → Bool
  | a :: ps, b :: ss => a != b || lconf ps ss
  | _, _ => false

/-- Python `dict.get`: first binding of a key in the association list. -/
def dget : List (String × Nat) → String → Option Nat
  | [], _ => none
  | (k, v) :: t, u => if k = u then some v else dget t u

/-- Python `dict[k] = v`: replace the binding in place, or append a new one. -/
def dset : List (String × Nat) → String → Nat → List (String × Nat)
  | [], u, v => [(u, v)]
  | (k, w) :: t, u, v => if k = u then (k, v) :: t else (k, w) :: dset t u v

/-- Python `del dict[k]`: remove the key (all bindings of it; dict keys are unique). -/
def ddel : List (String × Nat) → String → List (String × Nat)
  | [], _ => []
  | (k, w) :: t, u => if k = u then ddel t u else (k, w) :: ddel t u

/-- The process-local reputation state of `QueueClient`:
`_soft_error_counts` and `_ban_strikes`, both keyed by username. -/
structure RepState where
  softErrors : List (String × Nat)
  banStrikes : List (String × Nat)
deriving DecidableEq

/-- The part of a `Ctx` visible to the scheduler: the borrowed account's
username and the per-session successful-request counter `req_count`. -/
structure CtxS where
  username : String
  reqCount : Nat
deriving DecidableEq

/-- A response body: either text that failed JSON decoding, or a JSON object
described by its `errors` array (`none` when the key is absent) and whether a
`data.user` subtree is present. -/
inductive Body
  | invalid (raw : String)
  | json (errors : Option (List (Int × String))) (dataUser : Bool)
deriving DecidableEq

/-- An HTTP response as `_check_rep` consumes it: status code and the parsed
`x-rate-limit-remaining` / `x-rate-limit-reset` headers (`-1` when absent). -/
structure Resp where
  status : Int
  remaining : Int
  reset : Int
  body : Body
deriving DecidableEq

/-- The `errors` array of a body (`"errors" in res`), if present. -/
def repErrors : Body → Option (List (Int × String))
  | .invalid _ => none
  | .json es _ => es

/-- `status == 200 and "data" in res and "user" in res["data"]`. -/
def hasDataUser : Body → Bool
  | .invalid _ => false
  | .json _ b => b

/-- One formatted error: `f"({code}) {message}"`. -/
def fmtErr (e : Int × String) : String := "(" ++ toString e.1 ++ ") " ++ e.2

/-- `"; ".join(...)`. -/
def joinSemi : List String → String
  | [] => ""
  | [x] => x
  | x :: xs => x ++ "; " ++ joinSemi xs

/-- The formatted error string of `_check_rep`: `"OK"` when the body has no
`errors` key, else the deduplicated formatted errors joined by `"; "`.
(The source builds a Python `set`, whose iteration order is unspecified; we
keep first-occurrence order, which agrees on the single-error bodies used in
the claims.) -/
def errMsg : Option (List (Int × String)) → String
  | none => "OK"
  | some es => joinSemi ((es.map fmtErr).eraseDups)

/-- Pool mutations and borrows observed during a `QueueClient` session. -/
inductive Ev
  | borrow (username : String)
  | lockUntil (username queue : String) (ts : Int) (reqCount : Nat)
  | unlock (username queue : String) (reqCount : Nat)
  | markInactive (username : String) (msg : Option String)
deriving DecidableEq

/-- `QueueClient._close_ctx(reset_at, inactive, msg)`: release the held ctx,
emitting `mark_inactive`, `lock_until` (when `reset_at > 0`) or `unlock`. -/
def close_ctx (q : String) (ctx : Option CtxS) (resetAt : Int) (inact : Bool)
    (msg : Option String) : Option CtxS × List Ev :=
  match ctx with
  | none => (none, [])
  | some c =>
    if inact then (none, [Ev.markInactive c.username msg])
    else if 0 < resetAt then (none, [Ev.lockUntil c.username q resetAt c.reqCount])
    else (none, [Ev.unlock c.username q c.reqCount])

/-- The outcome of `_check_rep`: `passed` for a `None` return (response handed
to the caller), `handled` for `HandledError`, `aborted` for `AbortReqError`,
`procExit` for the `exit(1)` on error 336. -/
inductive Verdict
  | passed
  | handled
  | aborted
  | procExit
deriving DecidableEq

/-- Result shape shared by the classifier and its helpers. -/
abbrev CheckRes := Verdict × Option CtxS × RepState × List Ev

/-- A branch that keeps the ctx and emits nothing. -/
def keep (v : Verdict) (ctx : Option CtxS) (st : RepState) : CheckRes := (v, ctx, st, [])

/-- A branch that releases the ctx through `_close_ctx`. -/
def closed (v : Verdict) (q : String) (ctx : Option CtxS) (st : RepState)
    (resetAt : Int) (inact : Bool) (msg : Option String) : CheckRes :=
  let r := close_ctx q ctx resetAt inact msg
  (v, r.1, st, r.2)

/-- `QueueClient._reset_soft_errors`: delete both counters for the account. -/
def reset_soft_errors (st : RepState) (u : String) : RepState :=
  { softErrors := ddel st.softErrors u, banStrikes := ddel st.banStrikes u }

/-- `QueueClient._handle_ban_strike` (error 88 with remaining > 0):
increment the strike counter; at `_ban_strike_max = 6` strikes delete it and
mark the account inactive, otherwise back off for
`min(60 * 2^(strikes-1), 1440 - sum of previous backoffs)` minutes. -/
def handle_ban_strike (now : Int) (q : String) (ctx : Option CtxS) (st : RepState)
    (em : String) : CheckRes :=
  match ctx with
  | none => keep .handled none st
  | some c =>
    let strikes := (dget st.banStrikes c.username).getD 0 + 1
    let st1 : RepState := { st with banStrikes := dset st.banStrikes c.username strikes }
    if 6 ≤ strikes then
      closed .handled q (some c) { st1 with banStrikes := ddel st1.banStrikes c.username }
        (-1) true (some em)
    else
      let base : Int := 60 * 2 ^ (strikes - 1)
      let cum : Int := ((List.range (strikes - 1)).map (fun i => (60 : Int) * 2 ^ i)).sum
      let backoff : Int := min base (1440 - cum)
      closed .handled q (some c) st1 (now + 60 * backoff) false none

/-- `QueueClient._handle_soft_error`: immediate 2-minute lock on `(29) Timeout`;
otherwise count consecutive soft errors, and at `_soft_error_threshold = 5`
reset the counter to 0 and lock for `_soft_error_lock_minutes = 3`. -/
def handle_soft_error (now : Int) (q : String) (ctx : Option CtxS) (st : RepState)
    (em : String) : CheckRes :=
  match ctx with
  | none => keep .passed none st
  | some c =>
    if strContains em "(29) Timeout" then
      closed .handled q (some c) st (now + 60 * 2) false none
    else
      let cnt := (dget st.softErrors c.username).getD 0 + 1
      let st1 : RepState := { st with softErrors := dset st.softErrors c.username cnt }
      if 5 ≤ cnt then
        closed .handled q (some c)
          { st1 with softErrors := dset st1.softErrors c.username 0 } (now + 60 * 3) false none
      else keep .passed (some c) st1

/-- Tail of `_check_rep` after the code-131 rule: the "No status found" and
"Authorization" pass-throughs, the soft-error rule, the OK-path reputation
reset, and `rep.raise_for_status()` (15-minute lock on a non-2xx status). -/
def check_tail (now : Int) (q : String) (ctx : Option CtxS) (st : RepState)
    (rep : Resp) (em : String) : CheckRes :=
  if rep.status = 200 ∧ strContains em "_Missing: No status found with that ID" then
    keep .passed ctx st
  else if rep.status = 200 ∧ strContains em "Authorization" then
    keep .passed ctx st
  else if em ≠ "OK" then
    handle_soft_error now q ctx st em
  else
    let st2 := match ctx with
      | some c => reset_soft_errors st c.username
      | none => st
    if 200 ≤ rep.status ∧ rep.status < 300 then keep .passed ctx st2
    else closed .handled q ctx st2 (now + 60 * 15) false none

/-- `QueueClient._check_rep`, branch for branch in source order:
error 336 (`exit(1)`), hard rate limit (`remaining == 0 and reset > 0`),
error 88 with remaining > 0, error 326, error 32, 403 with empty body,
error 131 (OK when 200 with `data.user`, else abort), then `check_tail`. -/
def check_rep (now : Int) (q : String) (ctx : Option CtxS) (st : RepState)
    (rep : Resp) : CheckRes :=
  let em := errMsg (repErrors rep.body)
  if sPre "(336) The following features cannot be null" em then
    keep .procExit ctx st
  else if rep.remaining = 0 ∧ 0 < rep.reset then
    closed .handled q ctx st rep.reset false none
  else if sPre "(88) Rate limit exceeded" em ∧ 0 < rep.remaining then
    handle_ban_strike now q ctx st em
  else if sPre "(326) Authorization: Denied by access control" em then
    closed .handled q ctx st (-1) true (some em)
  else if sPre "(32) Could not authenticate you" em then
    closed .handled q ctx st (-1) true (some em)
  else if em = "OK" ∧ rep.status = 403 then
    closed .handled q ctx st (-1) true none
  else if sPre "(131) Dependency: Internal error" em then
    if rep.status = 200 ∧ hasDataUser rep.body then check_tail now q ctx st rep "OK"
    else keep .aborted ctx st
  else check_tail now q ctx st rep em

/-- Apply `check_rep` to `n` consecutive copies of the same response, each time
on a freshly borrowed ctx for username `u`, collecting verdicts and events. -/
def runRep (now : Int) (q u : String) (rep : Resp) : Nat → RepState →
    RepState × List (Verdict × List Ev)
  | 0, st => (st, [])
  | n + 1, st =>
    let r := check_rep now q (some ⟨u, 0⟩) st rep
    let rest := runRep now q u rep n r.2.2.1
    (rest.1, (r.1, r.2.2.2) :: rest.2)

/-- One transport outcome consumed by an iteration of `QueueClient.req`:
a response, or one of the exceptions `Ctx.req` can raise. -/
inductive Attempt
  | rep (r : Resp)
  | abortReq
  | readTimeout
  | proxyError
  | connectError
  | unknownErr
deriving DecidableEq

/-- What a `QueueClient.req` call produces. -/
inductive ReqResult
  | success (r : Resp)
  | nullRep
  | errRaised
  | procExit
  | pending
deriving DecidableEq

/-- `ctx.req_count += 1` on a successful response. -/
def bumpCtx : Option CtxS → Option CtxS
  | none => none
  | some c => some ⟨c.username, c.reqCount + 1⟩

/-- The `while True` loop of `QueueClient.req`, driven by a script `ats` of
transport outcomes and a script `accs` of accounts the pool would hand out.
Structurally recursive on `fuel` so that it evaluates in the kernel; `pending`
is returned when the fuel or the outcome script is exhausted mid-loop.
Mirrors the source: `AbortReqError` returns `None`; `HandledError` loops;
`ReadTimeout`/`ProxyError` retry uncounted on the same account;
`ConnectError`/`ConnectTimeout` raise at the third occurrence; unknown errors
lock the account 15 minutes at the third occurrence and keep looping. -/
def qc_go (now : Int) (q : String) : Nat → List Attempt → List String →
    Option CtxS → RepState → Nat → Nat → ReqResult × Option CtxS × RepState × List Ev
  | 0, _, _, ctx, st, _, _ => (.pending, ctx, st, [])
  | fuel + 1, ats, accs, none, st, ur, cr =>
    match accs with
    | [] => (.nullRep, none, st, [])
    | a :: rest =>
      let r := qc_go now q fuel ats rest (some ⟨a, 0⟩) st ur cr
      (r.1, r.2.1, r.2.2.1, Ev.borrow a :: r.2.2.2)
  | _ + 1, [], _, some c, st, _, _ => (.pending, some c, st, [])
  | fuel + 1, att :: ats, accs, some c, st, ur, cr =>
    match att with
    | .rep rep =>
      let k := check_rep now q (some c) st rep
      match k.1 with
      | .passed => (.success rep, bumpCtx k.2.1, k.2.2.1, k.2.2.2)
      | .aborted => (.nullRep, k.2.1, k.2.2.1, k.2.2.2)
      | .procExit => (.procExit, k.2.1, k.2.2.1, k.2.2.2)
      | .handled =>
        let r := qc_go now q fuel ats accs k.2.1 k.2.2.1 ur cr
        (r.1, r.2.1, r.2.2.1, k.2.2.2 ++ r.2.2.2)
    | .abortReq => (.nullRep, some c, st, [])
    | .readTimeout => qc_go now q fuel ats accs (some c) st ur cr
    | .proxyError => qc_go now q fuel ats accs (some c) st ur cr
    | .connectError =>
      if 3 ≤ cr + 1 then (.errRaised, some c, st, [])
      else qc_go now q fuel ats accs (some c) st ur (cr + 1)
    | .unknownErr =>
      if 3 ≤ ur + 1 then
        let r0 := close_ctx q (some c) (now + 60 * 15) false none
        let r := qc_go now q fuel ats accs r0.1 st (ur + 1) cr
        (r.1, r.2.1, r.2.2.1, r0.2 ++ r.2.2.2)
      else qc_go now q fuel ats accs (some c) st (ur + 1) cr

/-- A whole `QueueClient` use: `__aenter__` borrows an account, the `req` loop
runs, `__aexit__` releases whatever ctx is still held via `_close_ctx()`
(defaults: `reset_at = -1`, so a plain unlock).  Returns the call result, the
ctx after exit, the final reputation state and the event trace. -/
def qc_session (now : Int) (q : String) (fuel : Nat) (ats : List Attempt)
    (accs : List String) (st : RepState) :
    ReqResult × Option CtxS × RepState × List Ev :=
  match accs with
  | [] =>
    let r := qc_go now q fuel ats [] none st 0 0
    let r2 := close_ctx q r.2.1 (-1) false none
    (r.1, r2.1, r.2.2.1, r.2.2.2 ++ r2.2)
  | a :: rest =>
    let r := qc_go now q fuel ats rest (some ⟨a, 0⟩) st 0 0
    let r2 := close_ctx q r.2.1 (-1) false none
    (r.1, r2.1, r.2.2.1, (Ev.borrow a :: r.2.2.2) ++ r2.2)

/-- The loop of `Ctx.req`: `tries = 0; while tries < 3`, requesting a token
with `fresh = tries > 0`, returning the first non-404 response and raising
`AbortReqError` (here `none`) once three attempts returned 404.  The result
records the status, the attempt index, and whether the token was fresh. -/
def ctxReqGo : Nat → List Int → Option (Int × Nat × Bool)
  | _, [] => none
  | tries, s :: rest =>
    if tries < 3 then
      (if s ≠ 404 then some (s, tries, decide (0 < tries)) else ctxReqGo (tries + 1) rest)
    else none

/-- `Ctx.req` given the statuses the transport would return on each attempt. -/
def ctx_req (ss : List Int) : Option (Int × Nat × Bool) := ctxReqGo 0 ss

/-- Modelled from the spec: claim C4 reads `Ctx.req` as "on 404, regenerate the
token and retry, up to three times; if still 404 after three retries, abort" —
i.e. up to four attempts in total.  (The code itself is in `src` and is
modelled by `ctx_req`; this definition follows the claim's words, for the
refutation.) -/
def ctxReqClaimedGo : Nat → List Int → Option (Int × Nat)
  | _, [] => none
  | tries, s :: rest =>
    if tries < 4 then
      (if s ≠ 404 then some (s, tries) else ctxReqClaimedGo (tries + 1) rest)
    else none

/-- The claim's reading of `Ctx.req` (three retries after the first 404). -/
def ctx_req_claimed (ss : List Int) : Option (Int × Nat) := ctxReqClaimedGo 0 ss

/-- A page as `API._gql_items` sees it: the `entries` extracted from the
response, identified by their `entryId`, and the extracted next cursor. -/
structure Page where
  entryIds : List String
  cursor : Option String
deriving DecidableEq

/-- The filter in `_gql_items`: drop entries whose id starts with `cursor-` or
`messageprompt-`. -/
def filtEntries (p : Page) : List String :=
  p.entryIds.filter (fun x => !(sPre "cursor-" x || sPre "messageprompt-" x))

/-- `API._is_end(rep, q, res, cur, cnt, lim)`: whether the page is kept
(`rep if is_res else None`), the new running total, and whether the loop stays
active (`is_cur and not is_lim`). -/
def is_end (resLen : Nat) (cur : Option String) (cnt : Nat) (lim : Int) :
    Bool × Nat × Bool :=
  let newTotal := cnt + resLen
  (decide (0 < resLen), newTotal,
    cur.isSome && !(decide (0 < lim) && decide (lim ≤ (newTotal : Int))))

/-- The `while active` loop of `API._gql_items`, over the pages the transport
returns in order (an exhausted list models a `None` response): yields the
pages the stream would yield. -/
def gql_items (lim : Int) : List Page → Nat → List Page
  | [], _ => []
  | p :: rest, cnt =>
    let r := is_end (filtEntries p).length p.cursor cnt lim
    if r.1 then p :: (if r.2.2 then gql_items lim rest r.2.1 else []) else []

/-- Whether an event releases the borrow of username `u`. -/
def isReleaseOf (u : String) : Ev → Bool
  | .borrow _ => false
  | .lockUntil v _ _ _ => v == u
  | .unlock v _ _ => v == u
  | .markInactive v _ => v == u

/-- `balAux open t`: the trace `t` alternates borrows and releases of the
matching account, starting from borrow state `open` and ending with no borrow
held. -/
def balAux : Option String → List Ev → Bool
  | none, [] => true
  | some _, [] => false
  | none, e :: rest =>
    match e with
    | .borrow u => balAux (some u) rest
    | _ => false
  | some u, e :: rest => isReleaseOf u e && balAux none rest

/-- A balanced trace: every borrowed account is released exactly once, in
borrow order, and no borrow is left open at the end. -/
def balanced (t : List Ev) : Bool := balAux none t

/-- The username a held ctx would borrow. -/
def openOf : Option CtxS → Option String
  | none => none
  | some c => some c.username

/-- The release discipline of one classifier call on a held ctx: either the ctx
is kept and no pool event is emitted, or the ctx is gone and exactly one
release event for its username was emitted. -/
def RelShape (c : CtxS) (r : CheckRes) : Prop :=
  (r.2.1 = some c ∧ r.2.2.2 = []) ∨
  (r.2.1 = none ∧ ∃ e, r.2.2.2 = [e] ∧ isReleaseOf c.username e = true)

theorem dget_dset_self (m : List (String × Nat)) (u : String) (v : Nat) :
    dget (dset m u v) u = some v := by
  induction m with
  | nil => simp [dget, dset]
  | cons kv t ih =>
    obtain ⟨k, w⟩ := kv
    by_cases h : k = u <;> simp [dget, dset, h, ih]

theorem dset_dset_self (m : List (String × Nat)) (u : String) (a b : Nat) :
    dset (dset m u a) u b = dset m u b := by
  induction m with
  | nil => simp [dset]
  | cons kv t ih =>
    obtain ⟨k, w⟩ := kv
    by_cases h : k = u <;> simp [dset, h, ih]

theorem ddel_dset_self (m : List (String × Nat)) (u : String) (v : Nat) :
    ddel (dset m u v) u = ddel m u := by
  induction m with
  | nil => simp [dset, ddel]
  | cons kv t ih =>
    obtain ⟨k, w⟩ := kv
    by_cases h : k = u <;> simp [dset, ddel, h, ih]

theorem ddel_of_dget_none (m : List (String × Nat)) (u : String)
    (h : dget m u = none) : ddel m u = m := by
  induction m with
  | nil => simp [ddel]
  | cons kv t ih =>
    obtain ⟨k, w⟩ := kv
    by_cases hk : k = u
    · simp [dget, hk] at h
    · simp [dget, hk] at h
      simp [ddel, hk, ih h]

theorem dget_ddel_self (m : List (String × Nat)) (u : String) :
    dget (ddel m u) u = none := by
  induction m with
  | nil => simp [ddel, dget]
  | cons kv t ih =>
    obtain ⟨k, w⟩ := kv
    by_cases h : k = u <;> simp [ddel, dget, h, ih]

theorem lpre_of_lconf {p q s : List Char} (hc : lconf p q = true) (hq : lpre q s = true) :
    lpre p s = false := by
  induction p generalizing q s with
  | nil => simp [lconf] at hc
  | cons a ps ih =>
    match q, s with
    | [], _ => simp [lconf] at hc
    | b :: qs, [] => simp [lpre] at hq
    | b :: qs, c :: ss =>
      simp only [lconf, Bool.or_eq_true, bne_iff_ne] at hc
      simp only [lpre, Bool.and_eq_true, beq_iff_eq] at hq
      rcases hc with hab | hc
      · simp [lpre, beq_iff_eq, hq.1 ▸ hab]
      · simp [lpre, ih hc hq.2]

theorem sPre_of_lconf {p q s : String} (hc : lconf p.toList q.toList = true)
    (hq : sPre q s = true) : sPre p s = false :=
  lpre_of_lconf hc hq

theorem ne_of_sPre {q s t : String} (hq : sPre q s = true) (ht : sPre q t = false) :
    s ≠ t := by
  intro h
  rw [h, ht] at hq
  cases hq

theorem okPath (now : Int) (q : String) (c : CtxS) (st : RepState) (rep : Resp)
    (hre : repErrors rep.body = none) (h2 : 200 ≤ rep.status) (h3 : rep.status < 300)
    (hh : ¬(rep.remaining = 0 ∧ 0 < rep.reset)) :
    check_rep now q (some c) st rep =
      (.passed, some c, reset_soft_errors st c.username, []) := by
  unfold check_rep
  simp only [hre, errMsg]
  rw [if_neg (by decide)]
  rw [if_neg hh]
  rw [if_neg (fun h => absurd h.1 (by decide))]
  rw [if_neg (by decide)]
  rw [if_neg (by decide)]
  rw [if_neg (fun h => by have := h.2; omega)]
  rw [if_neg (by decide)]
  unfold check_tail
  rw [if_neg (fun h => absurd h.2 (by decide))]
  rw [if_neg (fun h => absurd h.2 (by decide))]
  rw [if_neg (by decide)]
  simp only []
  rw [if_pos (And.intro h2 h3)]
  rfl

theorem reset_soft_errors_idem (st : RepState) (u : String) :
    reset_soft_errors (reset_soft_errors st u) u = reset_soft_errors st u := by
  simp [reset_soft_errors, ddel_of_dget_none _ _ (dget_ddel_self _ _)]

/-- C9: classifying a response on the OK path deletes both the soft-error and
ban-strike counters of the response's account, and the reset is idempotent:
after one successful classification both counters are absent, and any further
successful classification for that account returns the reputation state
unchanged. -/
theorem reputation_reset_idempotent
    (now now2 : Int) (q q2 : String) (c c2 : CtxS) (st : RepState) (rep rep2 : Resp)
    (hu : c2.username = c.username)
    (hre : repErrors rep.body = none) (h2 : 200 ≤ rep.status) (h3 : rep.status < 300)
    (hh : ¬(rep.remaining = 0 ∧ 0 < rep.reset))
    (gre : repErrors rep2.body = none) (g2 : 200 ≤ rep2.status) (g3 : rep2.status < 300)
    (gh : ¬(rep2.remaining = 0 ∧ 0 < rep2.reset)) :
    check_rep now q (some c) st rep = (.passed, some c, reset_soft_errors st c.username, []) ∧
    dget (reset_soft_errors st c.username).softErrors c.username = none ∧
    dget (reset_soft_errors st c.username).banStrikes c.username = none ∧
    check_rep now2 q2 (some c2) (reset_soft_errors st c.username) rep2 =
      (.passed, some c2, reset_soft_errors st c.username, []) := by
  refine ⟨okPath now q c st rep hre h2 h3 hh, dget_ddel_self _ _, dget_ddel_self _ _, ?_⟩
  rw [okPath now2 q2 c2 _ rep2 gre g2 g3 gh, hu, reset_soft_errors_idem]

/-- C9 witness: two consecutive successes for account a1 starting from
counters soft=3, strikes=2. -/
theorem reputation_reset_idempotent_witness :
    check_rep 0 "Q" (some ⟨"a1", 0⟩) ⟨[("a1", 3)], [("a1", 2)]⟩ ⟨204, -1, -1, .json none false⟩ =
      (.passed, some ⟨"a1", 0⟩, reset_soft_errors ⟨[("a1", 3)], [("a1", 2)]⟩ "a1", []) ∧
    dget (reset_soft_errors ⟨[("a1", 3)], [("a1", 2)]⟩ "a1").softErrors "a1" = none ∧
    dget (reset_soft_errors ⟨[("a1", 3)], [("a1", 2)]⟩ "a1").banStrikes "a1" = none ∧
    check_rep 9 "R" (some ⟨"a1", 7⟩) (reset_soft_errors ⟨[("a1", 3)], [("a1", 2)]⟩ "a1")
        ⟨200, 5, 10, .invalid "not json"⟩ =
      (.passed, some ⟨"a1", 7⟩, reset_soft_errors ⟨[("a1", 3)], [("a1", 2)]⟩ "a1", []) :=
  reputation_reset_idempotent 0 9 "Q" "R" ⟨"a1", 0⟩ ⟨"a1", 7⟩ ⟨[("a1", 3)], [("a1", 2)]⟩
    ⟨204, -1, -1, .json none false⟩ ⟨200, 5, 10, .invalid "not json"⟩ rfl rfl (by decide)
    (by decide) (by decide) rfl (by decide) (by decide) (by decide)

/-- C10: a response body that is not valid JSON is treated as having no errors
array: for any 2xx status outside the hard-rate-limit condition, the response
is passed to the caller unchanged and both reputation counters for the
account are cleared; no body-error branch fires. -/
theorem invalid_json_ok_path (now : Int) (q : String) (c : CtxS) (st : RepState)
    (status rem rst : Int) (raw : String)
    (h2 : 200 ≤ status) (h3 : status < 300) (hh : ¬(rem = 0 ∧ 0 < rst)) :
    check_rep now q (some c) st ⟨status, rem, rst, .invalid raw⟩ =
      (.passed, some c, reset_soft_errors st c.username, []) ∧
    dget (reset_soft_errors st c.username).softErrors c.username = none ∧
    dget (reset_soft_errors st c.username).banStrikes c.username = none :=
  ⟨okPath now q c st _ rfl h2 h3 hh, dget_ddel_self _ _, dget_ddel_self _ _⟩

/-- C10 witness: status 200 with an HTML body and remaining=3. -/
theorem invalid_json_ok_path_witness :
    check_rep 0 "Q" (some ⟨"a1", 4⟩) ⟨[("a1", 2)], []⟩ ⟨200, 3, 0, .invalid "<html>"⟩ =
      (.passed, some ⟨"a1", 4⟩, reset_soft_errors ⟨[("a1", 2)], []⟩ "a1", []) ∧
    dget (reset_soft_errors ⟨[("a1", 2)], []⟩ "a1").softErrors "a1" = none ∧
    dget (reset_soft_errors ⟨[("a1", 2)], []⟩ "a1").banStrikes "a1" = none :=
  invalid_json_ok_path 0 "Q" ⟨"a1", 4⟩ ⟨[("a1", 2)], []⟩ 200 3 0 "<html>"
    (by decide) (by decide) (by decide)

/-- C2: for every response with remaining == 0 and reset > 0 whose body error
is not the (336) feature-flag error, the classifier releases the account with
unlock-at set exactly to the reset header and signals retry-other-account
(HandledError), regardless of the body (precedence over every body-error
rule); the Queue Client loop then returns null when no account is left, or
proceeds on a freshly borrowed account. -/
theorem hard_rate_limit_precedence (now : Int) (q : String) (c : CtxS) (st : RepState)
    (rep : Resp)
    (h336 : sPre "(336) The following features cannot be null"
      (errMsg (repErrors rep.body)) = false)
    (hrem : rep.remaining = 0) (hres : 0 < rep.reset) :
    check_rep now q (some c) st rep =
      (.handled, none, st, [.lockUntil c.username q rep.reset c.reqCount]) ∧
    (∀ (fuel : Nat) (ats : List Attempt) (ur cr : Nat),
      qc_go now q (fuel + 1 + 1) (.rep rep :: ats) [] (some c) st ur cr =
        (.nullRep, none, st, [.lockUntil c.username q rep.reset c.reqCount])) ∧
    (∀ (fuel : Nat) (ats : List Attempt) (a : String) (rest : List String) (ur cr : Nat),
      qc_go now q (fuel + 1 + 1) (.rep rep :: ats) (a :: rest) (some c) st ur cr =
        (let r := qc_go now q fuel ats rest (some ⟨a, 0⟩) st ur cr
         (r.1, r.2.1, r.2.2.1,
           Ev.lockUntil c.username q rep.reset c.reqCount :: Ev.borrow a :: r.2.2.2))) := by
  have h1 : check_rep now q (some c) st rep =
      (.handled, none, st, [.lockUntil c.username q rep.reset c.reqCount]) := by
    unfold check_rep
    rw [if_neg (by rw [h336]; exact Bool.false_ne_true)]
    rw [if_pos (And.intro hrem hres)]
    simp [closed, close_ctx, hres]
  refine ⟨h1, ?_, ?_⟩
  · intro fuel ats ur cr
    simp only [qc_go, h1, List.append_nil]
  · intro fuel ats a rest ur cr
    simp only [qc_go, h1, List.singleton_append]

/-- C2 witness: a response carrying a body error (88) and remaining=0,
reset=900 locks the account until 900 and the call returns null. -/
theorem hard_rate_limit_precedence_witness :
    check_rep 5 "SearchTimeline" (some ⟨"a1", 2⟩) ⟨[], []⟩
        ⟨200, 0, 900, .json (some [(88, "Rate limit exceeded")]) false⟩ =
      (.handled, none, ⟨[], []⟩, [.lockUntil "a1" "SearchTimeline" 900 2]) ∧
    qc_go 5 "SearchTimeline" (0 + 1 + 1)
        [.rep ⟨200, 0, 900, .json (some [(88, "Rate limit exceeded")]) false⟩] [] (some ⟨"a1", 2⟩)
        ⟨[], []⟩ 0 0 =
      (.nullRep, none, ⟨[], []⟩, [.lockUntil "a1" "SearchTimeline" 900 2]) := by
  have h := hard_rate_limit_precedence 5 "SearchTimeline" ⟨"a1", 2⟩ ⟨[], []⟩
    ⟨200, 0, 900, .json (some [(88, "Rate limit exceeded")]) false⟩ (by decide) rfl (by decide)
  exact ⟨h.1, h.2.1 0 [] 0 0⟩

theorem check_rep_88 (now : Int) (q : String) (ctx : Option CtxS) (st : RepState) (rep : Resp)
    (hem : sPre "(88) Rate limit exceeded" (errMsg (repErrors rep.body)) = true)
    (hrem : 0 < rep.remaining) :
    check_rep now q ctx st rep =
      handle_ban_strike now q ctx st (errMsg (repErrors rep.body)) := by
  unfold check_rep
  rw [if_neg (by simp [@sPre_of_lconf "(336) The following features cannot be null"
    "(88) Rate limit exceeded" _ (by decide) hem])]
  rw [if_neg (fun h => by omega)]
  rw [if_pos (And.intro hem hrem)]

theorem hbs_lock (now : Int) (q u : String) (rc : Nat) (st : RepState) (em : String)
    (s s' : Nat) (b : Int)
    (hs : (dget st.banStrikes u).getD 0 = s) (hs' : s' = s + 1) (hlt : s' < 6)
    (hb : b = min ((60 : Int) * 2 ^ s)
      (1440 - ((List.range s).map (fun i => (60 : Int) * 2 ^ i)).sum))
    (hpos : 0 < now + 60 * b) :
    handle_ban_strike now q (some ⟨u, rc⟩) st em =
      (.handled, none, { st with banStrikes := dset st.banStrikes u s' },
       [.lockUntil u q (now + 60 * b) rc]) := by
  subst hs'
  unfold handle_ban_strike
  simp only [hs]
  rw [if_neg (by omega)]
  simp only [Nat.add_sub_cancel, ← hb, closed, close_ctx]
  rw [if_neg (by simp), if_pos hpos]

theorem hbs_inactive (now : Int) (q u : String) (rc : Nat) (st : RepState) (em : String)
    (hs : (dget st.banStrikes u).getD 0 = 5) :
    handle_ban_strike now q (some ⟨u, rc⟩) st em =
      (.handled, none, { st with banStrikes := ddel (dset st.banStrikes u 6) u },
       [.markInactive u (some em)]) := by
  unfold handle_ban_strike
  simp only [hs]
  rw [if_pos (by omega)]
  simp [closed, close_ctx]

/-- C1: starting from no ban strikes, six consecutive responses classified as
code 88 with remaining > 0 produce locks of 60, 120, 240, 480 and 540 minutes
(each signalling retry-other-account via HandledError), and the 6th marks the
account inactive; the strike counter is removed again at the end (the final
reputation state equals the initial one, which holds no strike entry). -/
theorem ban_strike_schedule (now : Int) (q u : String) (st : RepState) (rep : Resp)
    (hem : sPre "(88) Rate limit exceeded" (errMsg (repErrors rep.body)) = true)
    (hrem : 0 < rep.remaining)
    (hnow : 0 ≤ now)
    (hst : dget st.banStrikes u = none) :
    runRep now q u rep 6 st =
      (st,
       [(.handled, [.lockUntil u q (now + 60 * 60) 0]),
        (.handled, [.lockUntil u q (now + 60 * 120) 0]),
        (.handled, [.lockUntil u q (now + 60 * 240) 0]),
        (.handled, [.lockUntil u q (now + 60 * 480) 0]),
        (.handled, [.lockUntil u q (now + 60 * 540) 0]),
        (.handled, [.markInactive u (some (errMsg (repErrors rep.body)))])]) := by
  have hc := fun st' => check_rep_88 now q (some ⟨u, 0⟩) st' rep hem hrem
  have e1 : check_rep now q (some ⟨u, 0⟩) st rep =
      (.handled, none, { st with banStrikes := dset st.banStrikes u 1 },
       [.lockUntil u q (now + 60 * 60) 0]) := by
    rw [hc, hbs_lock now q u 0 st (errMsg (repErrors rep.body)) 0 1 60
      (by rw [hst]; rfl) rfl (by omega) (by decide) (by omega)]
  have e2 : check_rep now q (some ⟨u, 0⟩) { st with banStrikes := dset st.banStrikes u 1 } rep =
      (.handled, none, { st with banStrikes := dset st.banStrikes u 2 },
       [.lockUntil u q (now + 60 * 120) 0]) := by
    rw [hc, hbs_lock now q u 0 { st with banStrikes := dset st.banStrikes u 1 }
      (errMsg (repErrors rep.body)) 1 2 120 (by simp [dget_dset_self]) rfl (by omega)
      (by decide) (by omega)]
    simp [dset_dset_self]
  have e3 : check_rep now q (some ⟨u, 0⟩) { st with banStrikes := dset st.banStrikes u 2 } rep =
      (.handled, none, { st with banStrikes := dset st.banStrikes u 3 },
       [.lockUntil u q (now + 60 * 240) 0]) := by
    rw [hc, hbs_lock now q u 0 { st with banStrikes := dset st.banStrikes u 2 }
      (errMsg (repErrors rep.body)) 2 3 240 (by simp [dget_dset_self]) rfl (by omega)
      (by decide) (by omega)]
    simp [dset_dset_self]
  have e4 : check_rep now q (some ⟨u, 0⟩) { st with banStrikes := dset st.banStrikes u 3 } rep =
      (.handled, none, { st with banStrikes := dset st.banStrikes u 4 },
       [.lockUntil u q (now + 60 * 480) 0]) := by
    rw [hc, hbs_lock now q u 0 { st with banStrikes := dset st.banStrikes u 3 }
      (errMsg (repErrors rep.body)) 3 4 480 (by simp [dget_dset_self]) rfl (by omega)
      (by decide) (by omega)]
    simp [dset_dset_self]
  have e5 : check_rep now q (some ⟨u, 0⟩) { st with banStrikes := dset st.banStrikes u 4 } rep =
      (.handled, none, { st with banStrikes := dset st.banStrikes u 5 },
       [.lockUntil u q (now + 60 * 540) 0]) := by
    rw [hc, hbs_lock now q u 0 { st with banStrikes := dset st.banStrikes u 4 }
      (errMsg (repErrors rep.body)) 4 5 540 (by simp [dget_dset_self]) rfl (by omega)
      (by decide) (by omega)]
    simp [dset_dset_self]
  have e6 : check_rep now q (some ⟨u, 0⟩) { st with banStrikes := dset st.banStrikes u 5 } rep =
      (.handled, none, st, [.markInactive u (some (errMsg (repErrors rep.body)))]) := by
    rw [hc, hbs_inactive now q u 0 { st with banStrikes := dset st.banStrikes u 5 }
      (errMsg (repErrors rep.body)) (by simp [dget_dset_self])]
    simp [dset_dset_self, ddel_dset_self, ddel_of_dget_none _ _ hst]
  simp only [runRep, e1, e2, e3, e4, e5, e6]

/-- C1 witness: account a1 at time 0, six code-88 responses with
remaining=1. -/
theorem ban_strike_schedule_witness :
    runRep 0 "Q" "a1" ⟨200, 1, -1, .json (some [(88, "Rate limit exceeded")]) false⟩ 6
        ⟨[], []⟩ =
      (⟨[], []⟩,
       [(.handled, [.lockUntil "a1" "Q" 3600 0]),
        (.handled, [.lockUntil "a1" "Q" 7200 0]),
        (.handled, [.lockUntil "a1" "Q" 14400 0]),
        (.handled, [.lockUntil "a1" "Q" 28800 0]),
        (.handled, [.lockUntil "a1" "Q" 32400 0]),
        (.handled, [.markInactive "a1" (some "(88) Rate limit exceeded")])]) := by
  rw [ban_strike_schedule 0 "Q" "a1" ⟨[], []⟩ _ (by decide) (by decide) (by decide) rfl]
  decide

theorem check_rep_soft (now : Int) (q : String) (ctx : Option CtxS) (st : RepState) (rep : Resp)
    (h336 : sPre "(336) The following features cannot be null" (errMsg (repErrors rep.body)) = false)
    (hhard : ¬(rep.remaining = 0 ∧ 0 < rep.reset))
    (h88 : ¬(sPre "(88) Rate limit exceeded" (errMsg (repErrors rep.body)) = true ∧
      0 < rep.remaining))
    (h326 : sPre "(326) Authorization: Denied by access control" (errMsg (repErrors rep.body)) = false)
    (h32 : sPre "(32) Could not authenticate you" (errMsg (repErrors rep.body)) = false)
    (hOK : errMsg (repErrors rep.body) ≠ "OK")
    (h131 : sPre "(131) Dependency: Internal error" (errMsg (repErrors rep.body)) = false)
    (hmiss : strContains (errMsg (repErrors rep.body)) "_Missing: No status found with that ID" = false)
    (hauth : strContains (errMsg (repErrors rep.body)) "Authorization" = false) :
    check_rep now q ctx st rep =
      handle_soft_error now q ctx st (errMsg (repErrors rep.body)) := by
  unfold check_rep
  rw [if_neg (by simp [h336])]
  rw [if_neg hhard]
  rw [if_neg h88]
  rw [if_neg (by simp [h326])]
  rw [if_neg (by simp [h32])]
  rw [if_neg (fun h => hOK h.1)]
  rw [if_neg (by simp [h131])]
  unfold check_tail
  rw [if_neg (fun h => by rw [hmiss] at h; exact Bool.false_ne_true h.2)]
  rw [if_neg (fun h => by rw [hauth] at h; exact Bool.false_ne_true h.2)]
  rw [if_pos hOK]

theorem hse_count (now : Int) (q u : String) (rc : Nat) (st : RepState) (em : String)
    (s s' : Nat) (hs : (dget st.softErrors u).getD 0 = s) (hs' : s' = s + 1) (hlt : s' < 5)
    (ht : strContains em "(29) Timeout" = false) :
    handle_soft_error now q (some ⟨u, rc⟩) st em =
      (.passed, some ⟨u, rc⟩, { st with softErrors := dset st.softErrors u s' }, []) := by
  subst hs'
  simp only [handle_soft_error]
  rw [if_neg (by simp [ht])]
  simp only [hs]
  rw [if_neg (by omega)]
  rfl

theorem hse_lock (now : Int) (q u : String) (rc : Nat) (st : RepState) (em : String)
    (hs : (dget st.softErrors u).getD 0 = 4)
    (ht : strContains em "(29) Timeout" = false) (hpos : 0 < now + 60 * 3) :
    handle_soft_error now q (some ⟨u, rc⟩) st em =
      (.handled, none, { st with softErrors := dset st.softErrors u 0 },
       [.lockUntil u q (now + 60 * 3) rc]) := by
  simp only [handle_soft_error]
  rw [if_neg (by simp [ht])]
  simp only [hs]
  rw [if_pos (by omega)]
  have h180 : (0 : Int) < now + 180 := by omega
  simp [closed, close_ctx, dset_dset_self, h180]

/-- C3: in a consecutive run of non-timeout soft errors (status-200 responses
with a non-empty formatted error matching no earlier classifier rule),
occurrences 1-4 pass the response back to the caller while the per-account
counter grows to 4, and the 5th resets the counter to zero and locks the
account for 3 minutes with a retry-other-account signal. -/
theorem soft_error_threshold (now : Int) (q u : String) (st : RepState) (rep : Resp)
    (h336 : sPre "(336) The following features cannot be null" (errMsg (repErrors rep.body)) = false)
    (hhard : ¬(rep.remaining = 0 ∧ 0 < rep.reset))
    (h88 : ¬(sPre "(88) Rate limit exceeded" (errMsg (repErrors rep.body)) = true ∧
      0 < rep.remaining))
    (h326 : sPre "(326) Authorization: Denied by access control" (errMsg (repErrors rep.body)) = false)
    (h32 : sPre "(32) Could not authenticate you" (errMsg (repErrors rep.body)) = false)
    (hOK : errMsg (repErrors rep.body) ≠ "OK")
    (h131 : sPre "(131) Dependency: Internal error" (errMsg (repErrors rep.body)) = false)
    (hmiss : strContains (errMsg (repErrors rep.body)) "_Missing: No status found with that ID" = false)
    (hauth : strContains (errMsg (repErrors rep.body)) "Authorization" = false)
    (ht : strContains (errMsg (repErrors rep.body)) "(29) Timeout" = false)
    (hnow : 0 ≤ now)
    (hst : dget st.softErrors u = none) :
    runRep now q u rep 5 st =
      ({ st with softErrors := dset st.softErrors u 0 },
       [(.passed, []), (.passed, []), (.passed, []), (.passed, []),
        (.handled, [.lockUntil u q (now + 60 * 3) 0])]) := by
  have hc := fun st' => check_rep_soft now q (some ⟨u, 0⟩) st' rep h336 hhard h88 h326 h32
    hOK h131 hmiss hauth
  have e1 : check_rep now q (some ⟨u, 0⟩) st rep =
      (.passed, some ⟨u, 0⟩, { st with softErrors := dset st.softErrors u 1 }, []) := by
    rw [hc, hse_count now q u 0 st (errMsg (repErrors rep.body)) 0 1 (by rw [hst]; rfl) rfl
      (by omega) ht]
  have e2 : check_rep now q (some ⟨u, 0⟩) { st with softErrors := dset st.softErrors u 1 } rep =
      (.passed, some ⟨u, 0⟩, { st with softErrors := dset st.softErrors u 2 }, []) := by
    rw [hc, hse_count now q u 0 { st with softErrors := dset st.softErrors u 1 }
      (errMsg (repErrors rep.body)) 1 2 (by simp [dget_dset_self]) rfl (by omega) ht]
    simp [dset_dset_self]
  have e3 : check_rep now q (some ⟨u, 0⟩) { st with softErrors := dset st.softErrors u 2 } rep =
      (.passed, some ⟨u, 0⟩, { st with softErrors := dset st.softErrors u 3 }, []) := by
    rw [hc, hse_count now q u 0 { st with softErrors := dset st.softErrors u 2 }
      (errMsg (repErrors rep.body)) 2 3 (by simp [dget_dset_self]) rfl (by omega) ht]
    simp [dset_dset_self]
  have e4 : check_rep now q (some ⟨u, 0⟩) { st with softErrors := dset st.softErrors u 3 } rep =
      (.passed, some ⟨u, 0⟩, { st with softErrors := dset st.softErrors u 4 }, []) := by
    rw [hc, hse_count now q u 0 { st with softErrors := dset st.softErrors u 3 }
      (errMsg (repErrors rep.body)) 3 4 (by simp [dget_dset_self]) rfl (by omega) ht]
    simp [dset_dset_self]
  have e5 : check_rep now q (some ⟨u, 0⟩) { st with softErrors := dset st.softErrors u 4 } rep =
      (.handled, none, { st with softErrors := dset st.softErrors u 0 },
       [.lockUntil u q (now + 60 * 3) 0]) := by
    rw [hc, hse_lock now q u 0 { st with softErrors := dset st.softErrors u 4 }
      (errMsg (repErrors rep.body)) (by simp [dget_dset_self]) ht (by omega)]
    simp [dset_dset_self]
  simp only [runRep, e1, e2, e3, e4, e5]

/-- C3 witness: five responses with body error (999) for account a1 at time
7; the 5th locks until 7 + 180 = 187. -/
theorem soft_error_threshold_witness :
    runRep 7 "Q" "a1" ⟨200, -1, -1, .json (some [(999, "Some error")]) false⟩ 5 ⟨[], []⟩ =
      (⟨[("a1", 0)], []⟩,
       [(.passed, []), (.passed, []), (.passed, []), (.passed, []),
        (.handled, [.lockUntil "a1" "Q" 187 0])]) := by
  rw [soft_error_threshold 7 "Q" "a1" ⟨[], []⟩ _ (by decide) (by decide) (by decide) (by decide)
    (by decide) (by decide) (by decide) (by decide) (by decide) (by decide) (by decide) rfl]
  decide

/-- C6 counterexample: a response whose formatted error begins with
"(131) Dependency: Internal error", with status 200 and a data.user subtree
present, but with remaining=0 and reset=900, is NOT classified OK and NOT
returned to the caller: the hard-rate-limit branch fires first and locks the
account, contradicting the claim as stated. -/
theorem dependency_error_counterexample :
    check_rep 0 "Q" (some ⟨"a1", 0⟩) ⟨[], []⟩
        ⟨200, 0, 900, .json (some [(131, "Dependency: Internal error.")]) true⟩ =
      (.handled, none, ⟨[], []⟩, [.lockUntil "a1" "Q" 900 0]) := by decide

/-- C6 amended: provided the hard-rate-limit condition (remaining == 0 and
reset > 0) does not hold, a response whose formatted error begins with
"(131) Dependency: Internal error" is classified OK and passed to the caller
when the status is 200 and a data.user subtree is present; otherwise the
classifier raises AbortReqError, and the Queue Client request returns null
with the ctx kept (no lock, inactive mark, or reputation change). -/
theorem dependency_error_amended (now : Int) (q : String) (c : CtxS) (st : RepState)
    (rep : Resp)
    (h131 : sPre "(131) Dependency: Internal error" (errMsg (repErrors rep.body)) = true)
    (hhard : ¬(rep.remaining = 0 ∧ 0 < rep.reset)) :
    (rep.status = 200 ∧ hasDataUser rep.body = true →
      check_rep now q (some c) st rep =
        (.passed, some c, reset_soft_errors st c.username, [])) ∧
    (¬(rep.status = 200 ∧ hasDataUser rep.body = true) →
      check_rep now q (some c) st rep = (.aborted, some c, st, []) ∧
      ∀ (fuel : Nat) (ats : List Attempt) (accs : List String) (ur cr : Nat),
        qc_go now q (fuel + 1) (.rep rep :: ats) accs (some c) st ur cr =
          (.nullRep, some c, st, [])) := by
  have hOK : errMsg (repErrors rep.body) ≠ "OK" := ne_of_sPre h131 (by decide)
  have hpre : ∀ st' : RepState, check_rep now q (some c) st' rep =
      if rep.status = 200 ∧ hasDataUser rep.body = true then
        check_tail now q (some c) st' rep "OK"
      else keep .aborted (some c) st' := by
    intro st'
    unfold check_rep
    rw [if_neg (by simp [@sPre_of_lconf "(336) The following features cannot be null"
      "(131) Dependency: Internal error" _ (by decide) h131])]
    rw [if_neg hhard]
    rw [if_neg (fun h => by
      rw [@sPre_of_lconf "(88) Rate limit exceeded"
        "(131) Dependency: Internal error" _ (by decide) h131] at h
      exact Bool.false_ne_true h.1)]
    rw [if_neg (by simp [@sPre_of_lconf "(326) Authorization: Denied by access control"
      "(131) Dependency: Internal error" _ (by decide) h131])]
    rw [if_neg (by simp [@sPre_of_lconf "(32) Could not authenticate you"
      "(131) Dependency: Internal error" _ (by decide) h131])]
    rw [if_neg (fun h => hOK h.1)]
    rw [if_pos (by simp [h131])]
  constructor
  · intro hcond
    rw [hpre st, if_pos hcond]
    unfold check_tail
    rw [if_neg (fun h => Bool.false_ne_true h.2)]
    rw [if_neg (fun h => Bool.false_ne_true h.2)]
    rw [if_neg (by decide)]
    rw [if_pos (by constructor <;> omega)]
    rfl
  · intro hcond
    have h1 : check_rep now q (some c) st rep = (.aborted, some c, st, []) := by
      rw [hpre st, if_neg hcond]; rfl
    refine ⟨h1, ?_⟩
    intro fuel ats accs ur cr
    simp only [qc_go, h1]

/-- C6 witness: the OK side (200 with data.user) and the abort side (500
without data.user). -/
theorem dependency_error_amended_witness :
    check_rep 3 "Q" (some ⟨"a1", 1⟩) ⟨[], []⟩
        ⟨200, 5, 900, .json (some [(131, "Dependency: Internal error.")]) true⟩ =
      (.passed, some ⟨"a1", 1⟩, reset_soft_errors ⟨[], []⟩ "a1", []) ∧
    check_rep 3 "Q" (some ⟨"a1", 1⟩) ⟨[], []⟩
        ⟨500, 5, 900, .json (some [(131, "Dependency: Internal error.")]) false⟩ =
      (.aborted, some ⟨"a1", 1⟩, ⟨[], []⟩, []) := by
  constructor
  · exact (dependency_error_amended 3 "Q" ⟨"a1", 1⟩ ⟨[], []⟩
      ⟨200, 5, 900, .json (some [(131, "Dependency: Internal error.")]) true⟩
      (by decide) (by decide)).1 (by decide)
  · exact ((dependency_error_amended 3 "Q" ⟨"a1", 1⟩ ⟨[], []⟩
      ⟨500, 5, 900, .json (some [(131, "Dependency: Internal error.")]) false⟩
      (by decide) (by decide)).2 (by decide)).1

/-- C4 counterexample: on statuses 404,404,404,200 the code aborts after the
third 404 (three attempts, two regenerate-and-retry cycles) and never issues
the fourth request, while the claim's reading ("up to three retries after a
404") would reach the fourth attempt and return 200. -/
theorem ctx_req_retry_counterexample :
    ctx_req [404, 404, 404, 200] = none ∧
    ctx_req_claimed [404, 404, 404, 200] = some (200, 3) := by decide

theorem ctxReqGo_three (ss : List Int) : ctxReqGo 3 ss = none := by
  cases ss <;> simp [ctxReqGo]

/-- C4 amended: Ctx.req makes at most three attempts in total: the first with
the cached token (fresh=false), the second and third with a regenerated token
(fresh=true); it returns the first non-404 response and raises AbortReqError
after the third consecutive 404 (i.e. at most two retries). The abort makes
QueueClient.req return null immediately with no pool event and the ctx still
held, and the session then releases the account with a plain unlock. -/
theorem ctx_req_amended :
    (∀ (a b c : Int) (rest : List Int),
      ctx_req (a :: b :: c :: rest) =
        if a ≠ 404 then some (a, 0, false)
        else if b ≠ 404 then some (b, 1, true)
        else if c ≠ 404 then some (c, 2, true)
        else none) ∧
    (∀ (now : Int) (q : String) (fuel : Nat) (ats : List Attempt) (accs : List String)
      (c : CtxS) (st : RepState) (ur cr : Nat),
      qc_go now q (fuel + 1) (.abortReq :: ats) accs (some c) st ur cr =
        (.nullRep, some c, st, [])) ∧
    (∀ (now : Int) (q a : String) (fuel : Nat) (st : RepState),
      qc_session now q (fuel + 1) [.abortReq] [a] st =
        (.nullRep, none, st, [.borrow a, .unlock a q 0])) := by
  refine ⟨?_, ?_, ?_⟩
  · intro a b c rest
    by_cases ha : a = 404 <;> by_cases hb : b = 404 <;> by_cases hc : c = 404 <;>
      simp [ctx_req, ctxReqGo, ctxReqGo_three, ha, hb, hc]
  · intro now q fuel ats accs c st ur cr
    simp only [qc_go]
  · intro now q a fuel st
    simp [qc_session, qc_go, close_ctx]

/-- C5 counterexample: ten consecutive ProxyErrors are all retried on the
same account and the call still succeeds, contradicting the claim that proxy
errors propagate after 3 retries. -/
theorem proxy_retry_counterexample :
    qc_go 0 "Q" 20
        (List.replicate 10 .proxyError ++ [.rep ⟨200, -1, -1, .json none false⟩]) []
        (some ⟨"a1", 0⟩) ⟨[], []⟩ 0 0 =
      (.success ⟨200, -1, -1, .json none false⟩, some ⟨"a1", 1⟩, ⟨[], []⟩, []) := by decide

/-- C5 amended: ReadTimeout and ProxyError are retried on the same borrowed
account without counting (any number of them is transparent); ConnectError/
ConnectTimeout are counted, the third consecutive counted one propagates to
the caller (at most two connect-error retries), and below that bound the
loop continues on the same account with the counter incremented. -/
theorem transport_retry_amended :
    (∀ (now : Int) (q : String) (n fuel : Nat) (ats : List Attempt) (accs : List String)
      (c : CtxS) (st : RepState) (ur cr : Nat),
      qc_go now q (n + fuel) (List.replicate n .proxyError ++ ats) accs (some c) st ur cr =
        qc_go now q fuel ats accs (some c) st ur cr) ∧
    (∀ (now : Int) (q : String) (n fuel : Nat) (ats : List Attempt) (accs : List String)
      (c : CtxS) (st : RepState) (ur cr : Nat),
      qc_go now q (n + fuel) (List.replicate n .readTimeout ++ ats) accs (some c) st ur cr =
        qc_go now q fuel ats accs (some c) st ur cr) ∧
    (∀ (now : Int) (q : String) (fuel : Nat) (ats : List Attempt) (accs : List String)
      (c : CtxS) (st : RepState) (ur : Nat),
      qc_go now q (fuel + 3) (.connectError :: .connectError :: .connectError :: ats) accs
        (some c) st ur 0 = (.errRaised, some c, st, [])) ∧
    (∀ (now : Int) (q : String) (fuel : Nat) (ats : List Attempt) (accs : List String)
      (c : CtxS) (st : RepState) (ur cr : Nat), cr + 1 < 3 →
      qc_go now q (fuel + 1) (.connectError :: ats) accs (some c) st ur cr =
        qc_go now q fuel ats accs (some c) st ur (cr + 1)) := by
  refine ⟨?_, ?_, ?_, ?_⟩
  · intro now q n
    induction n with
    | zero => intro fuel ats accs c st ur cr; simp
    | succ n ih =>
      intro fuel ats accs c st ur cr
      have : n + 1 + fuel = (n + fuel) + 1 := by omega
      rw [this, List.replicate_succ, List.cons_append]
      simp only [qc_go]
      exact ih fuel ats accs c st ur cr
  · intro now q n
    induction n with
    | zero => intro fuel ats accs c st ur cr; simp
    | succ n ih =>
      intro fuel ats accs c st ur cr
      have : n + 1 + fuel = (n + fuel) + 1 := by omega
      rw [this, List.replicate_succ, List.cons_append]
      simp only [qc_go]
      exact ih fuel ats accs c st ur cr
  · intro now q fuel ats accs c st ur
    simp [qc_go]
  · intro now q fuel ats accs c st ur cr hcr
    simp only [qc_go]
    rw [if_neg (by omega)]

/-- C5 witness: three proxy errors are transparent; a connect error at
counter 1 continues with counter 2. -/
theorem transport_retry_amended_witness :
    qc_go 0 "Q" (3 + 2) (List.replicate 3 .proxyError ++ [.abortReq]) [] (some ⟨"a1", 0⟩)
        ⟨[], []⟩ 0 0 = qc_go 0 "Q" 2 [.abortReq] [] (some ⟨"a1", 0⟩) ⟨[], []⟩ 0 0 ∧
    qc_go 0 "Q" (1 + 1) [.connectError] [] (some ⟨"a1", 0⟩) ⟨[], []⟩ 0 1 =
      qc_go 0 "Q" 1 [] [] (some ⟨"a1", 0⟩) ⟨[], []⟩ 0 2 :=
  ⟨transport_retry_amended.1 0 "Q" 3 2 [.abortReq] [] ⟨"a1", 0⟩ ⟨[], []⟩ 0 0,
   transport_retry_amended.2.2.2 0 "Q" 1 [] [] ⟨"a1", 0⟩ ⟨[], []⟩ 0 1 (by omega)⟩

/-- C7: for the paginated stream driver with no caller limit (lim <= 0),
given pages that each contain at least one non-filtered entry where only the
last page's extracted cursor is null, the stream yields exactly those pages,
in order, and terminates. -/
theorem cursor_termination (lim : Int) (last : Page) (hlim : lim ≤ 0)
    (hl : filtEntries last ≠ []) (hlc : last.cursor = none) :
    ∀ front : List Page,
      (∀ p ∈ front, filtEntries p ≠ [] ∧ p.cursor.isSome = true) →
      ∀ cnt : Nat, gql_items lim (front ++ [last]) cnt = front ++ [last] := by
  intro front
  induction front with
  | nil =>
    intro _ cnt
    simp [gql_items, is_end, hlc, List.length_pos.mpr hl]
  | cons p fr ih =>
    intro hfr cnt
    obtain ⟨hpe, hpc⟩ := hfr p (List.mem_cons_self p fr)
    have hfr' : ∀ p ∈ fr, filtEntries p ≠ [] ∧ p.cursor.isSome = true :=
      fun x hx => hfr x (List.mem_cons_of_mem p hx)
    have hlimf : decide (0 < lim) = false := decide_eq_false (by omega)
    simp only [List.cons_append, gql_items, is_end]
    rw [if_pos (by simp [List.length_pos.mpr hpe])]
    rw [if_pos (by simp [hpc, hlimf])]
    exact congrArg (fun l => p :: l) (ih hfr' _)

/-- C7 witness: three pages, cursor null only on the third; all three are
yielded in order (a filtered cursor- entry does not count). -/
theorem cursor_termination_witness :
    gql_items (-1)
        [⟨["tweet-1"], some "c1"⟩, ⟨["tweet-2", "cursor-b"], some "c2"⟩, ⟨["tweet-3"], none⟩]
        0 =
      [⟨["tweet-1"], some "c1"⟩, ⟨["tweet-2", "cursor-b"], some "c2"⟩, ⟨["tweet-3"], none⟩] := by
  have h := cursor_termination (-1) ⟨["tweet-3"], none⟩ (by omega) (by decide) rfl
    [⟨["tweet-1"], some "c1"⟩, ⟨["tweet-2", "cursor-b"], some "c2"⟩] (by decide) 0
  simpa using h

theorem close_ctx_fst (q : String) (x : Option CtxS) (r : Int) (i : Bool) (m : Option String) :
    (close_ctx q x r i m).1 = none := by
  cases x with
  | none => rfl
  | some c =>
    simp only [close_ctx]
    split
    · rfl
    · split <;> rfl

theorem close_ctx_release (q : String) (c : CtxS) (r : Int) (i : Bool) (m : Option String) :
    ∃ e, close_ctx q (some c) r i m = (none, [e]) ∧ isReleaseOf c.username e = true := by
  cases i with
  | true => exact ⟨.markInactive c.username m, by simp [close_ctx], by simp [isReleaseOf]⟩
  | false =>
    by_cases hr : 0 < r
    · exact ⟨.lockUntil c.username q r c.reqCount, by simp [close_ctx, hr],
        by simp [isReleaseOf]⟩
    · exact ⟨.unlock c.username q c.reqCount, by simp [close_ctx, hr], by simp [isReleaseOf]⟩


theorem relShape_keep (c : CtxS) (v : Verdict) (st : RepState) :
    RelShape c (keep v (some c) st) := Or.inl ⟨rfl, rfl⟩

theorem relShape_closed (c : CtxS) (v : Verdict) (q : String) (st : RepState) (r : Int)
    (i : Bool) (m : Option String) : RelShape c (closed v q (some c) st r i m) := by
  obtain ⟨e, h1, h2⟩ := close_ctx_release q c r i m
  exact Or.inr ⟨by simp [closed, h1], e, by simp [closed, h1], h2⟩

theorem relShape_hbs (now : Int) (q : String) (c : CtxS) (st : RepState) (em : String) :
    RelShape c (handle_ban_strike now q (some c) st em) := by
  simp only [handle_ban_strike]
  split
  · exact relShape_closed _ _ _ _ _ _ _
  · exact relShape_closed _ _ _ _ _ _ _

theorem relShape_hse (now : Int) (q : String) (c : CtxS) (st : RepState) (em : String) :
    RelShape c (handle_soft_error now q (some c) st em) := by
  simp only [handle_soft_error]
  split
  · exact relShape_closed _ _ _ _ _ _ _
  · split
    · exact relShape_closed _ _ _ _ _ _ _
    · exact relShape_keep _ _ _

theorem relShape_check_tail (now : Int) (q : String) (c : CtxS) (st : RepState) (rep : Resp)
    (em : String) : RelShape c (check_tail now q (some c) st rep em) := by
  simp only [check_tail]
  split
  · exact relShape_keep _ _ _
  · split
    · exact relShape_keep _ _ _
    · split
      · exact relShape_hse _ _ _ _ _
      · split
        · exact relShape_keep _ _ _
        · exact relShape_closed _ _ _ _ _ _ _

theorem relShape_check_rep (now : Int) (q : String) (c : CtxS) (st : RepState) (rep : Resp) :
    RelShape c (check_rep now q (some c) st rep) := by
  simp only [check_rep]
  split
  · exact relShape_keep _ _ _
  · split
    · exact relShape_closed _ _ _ _ _ _ _
    · split
      · exact relShape_hbs _ _ _ _ _
      · split
        · exact relShape_closed _ _ _ _ _ _ _
        · split
          · exact relShape_closed _ _ _ _ _ _ _
          · split
            · exact relShape_closed _ _ _ _ _ _ _
            · split
              · split
                · exact relShape_check_tail _ _ _ _ _ _
                · exact relShape_keep _ _ _
              · exact relShape_check_tail _ _ _ _ _ _

theorem openOf_bumpCtx (x : Option CtxS) : openOf (bumpCtx x) = openOf x := by
  cases x <;> rfl

theorem balAux_release_cons (u : String) (e : Ev) (t : List Ev)
    (he : isReleaseOf u e = true) (h : balAux none t = true) :
    balAux (some u) (e :: t) = true := by
  simp [balAux, he, h]

theorem balAux_close (q : String) (x : Option CtxS) :
    balAux (openOf x) (close_ctx q x (-1) false none).2 = true := by
  cases x with
  | none => rfl
  | some c =>
    have : ¬ ((0 : Int) < -1) := by omega
    simp [close_ctx, openOf, balAux, isReleaseOf, this]

theorem qc_go_bal (now : Int) (q : String) :
    ∀ (fuel : Nat) (ats : List Attempt) (accs : List String) (ctx : Option CtxS)
      (st : RepState) (ur cr : Nat) (tail : List Ev),
      balAux (openOf (qc_go now q fuel ats accs ctx st ur cr).2.1) tail = true →
      balAux (openOf ctx) ((qc_go now q fuel ats accs ctx st ur cr).2.2.2 ++ tail) = true := by
  intro fuel
  induction fuel with
  | zero =>
    intro ats accs ctx st ur cr tail h
    simpa [qc_go] using h
  | succ fuel ih =>
    intro ats accs ctx st ur cr tail h
    cases ctx with
    | none =>
      cases accs with
      | nil => simpa [qc_go] using h
      | cons a rest =>
        simp only [qc_go] at h ⊢
        rw [List.cons_append]
        have hrec := ih ats rest (some ⟨a, 0⟩) st ur cr tail h
        simpa [balAux, openOf] using hrec
    | some c =>
      cases ats with
      | nil => simpa [qc_go] using h
      | cons att rest =>
        cases att with
        | rep rp =>
          rcases hv : (check_rep now q (some c) st rp).1 with _ | _ | _ | _ <;>
            simp only [qc_go, hv] at h ⊢ <;>
            rcases relShape_check_rep now q c st rp with ⟨h1, h2⟩ | ⟨h1, e, h2, h3⟩
          · simp only [h1, h2, List.nil_append, openOf_bumpCtx] at h ⊢
            simpa [openOf] using h
          · simp only [h1, h2, List.singleton_append, openOf_bumpCtx] at h ⊢
            exact balAux_release_cons _ _ _ h3 (by simpa [openOf] using h)
          · simp only [h1, h2, List.nil_append] at h ⊢
            have hrec := ih rest accs (some c) (check_rep now q (some c) st rp).2.2.1
              ur cr tail h
            simpa [openOf] using hrec
          · simp only [h1, h2, List.singleton_append, List.cons_append] at h ⊢
            have hrec := ih rest accs none (check_rep now q (some c) st rp).2.2.1
              ur cr tail h
            exact balAux_release_cons _ _ _ h3 (by simpa [openOf] using hrec)
          · simp only [h1, h2, List.nil_append] at h ⊢
            simpa [openOf] using h
          · simp only [h1, h2, List.singleton_append] at h ⊢
            exact balAux_release_cons _ _ _ h3 (by simpa [openOf] using h)
          · simp only [h1, h2, List.nil_append] at h ⊢
            simpa [openOf] using h
          · simp only [h1, h2, List.singleton_append] at h ⊢
            exact balAux_release_cons _ _ _ h3 (by simpa [openOf] using h)
        | abortReq => simpa [qc_go, openOf] using h
        | readTimeout =>
          simp only [qc_go] at h ⊢
          exact ih rest accs (some c) st ur cr tail h
        | proxyError =>
          simp only [qc_go] at h ⊢
          exact ih rest accs (some c) st ur cr tail h
        | connectError =>
          by_cases hcr : 3 ≤ cr + 1 <;> simp only [qc_go] at h ⊢
          · rw [if_pos hcr] at h ⊢
            simpa [openOf] using h
          · rw [if_neg hcr] at h ⊢
            exact ih rest accs (some c) st ur (cr + 1) tail h
        | unknownErr =>
          by_cases hur : 3 ≤ ur + 1 <;> simp only [qc_go] at h ⊢
          · rw [if_pos hur] at h ⊢
            obtain ⟨e, h1, h2⟩ := close_ctx_release q c (now + 60 * 15) false none
            simp only [h1, List.singleton_append, List.cons_append] at h ⊢
            have hrec := ih rest accs none st (ur + 1) cr tail h
            exact balAux_release_cons _ _ _ h2 (by simpa [openOf] using hrec)
          · rw [if_neg hur] at h ⊢
            exact ih rest accs (some c) st (ur + 1) cr tail h

/-- C8: for every Queue Client session (any script of transport outcomes and
pool accounts, hence any of success, null-return, raised error, or an
exceptional exit through the context manager), the event trace is balanced:
every borrowed account is released exactly once, in borrow order, via
lock_until, unlock or mark_inactive, and the client ends holding no ctx. -/
theorem release_on_exit (now : Int) (q : String) (fuel : Nat) (ats : List Attempt)
    (accs : List String) (st : RepState) :
    balanced (qc_session now q fuel ats accs st).2.2.2 = true ∧
    (qc_session now q fuel ats accs st).2.1 = none := by
  cases accs with
  | nil =>
    constructor
    · simp only [qc_session, balanced]
      exact qc_go_bal now q fuel ats [] none st 0 0 _ (balAux_close q _)
    · simp only [qc_session]
      exact close_ctx_fst _ _ _ _ _
  | cons a rest =>
    constructor
    · simp only [qc_session, balanced, List.cons_append]
      show balAux (some a) _ = true
      have hb := qc_go_bal now q fuel ats rest (some ⟨a, 0⟩) st 0 0 _ (balAux_close q _)
      simpa [openOf] using hb
    · simp only [qc_session]
      exact close_ctx_fst _ _ _ _ _
